import Mathlib

/-!
Verification of the credential-rotation and article-sync core of the
wewe-rss worker (Cloudflare Workers variant).

The TypeScript sources are shallowly embedded as pure Lean functions:

* the D1 tables (`accounts`, `feeds`, `articles`) become lists of row
  structures and every SQL statement becomes an explicit list transformation;
* the process-local mutable state (`blockedAccountsMap`, the
  `isRefreshAllMpArticlesRunning` flag and the `inProgressHistoryMp`
  marker) becomes explicit state that is passed and returned;
* network calls (`fetchJson`, login polling) become oracles, i.e. functions
  from the attempt index to the outcome the upstream produced;
* `Date`/`Math.random` become explicit `now`/`r` parameters.
-/

namespace WeweRss

/-! ## Constants (`apps/worker/src/constants.ts`) -/

namespace statusMap

def INVALID : Nat := 0

def ENABLE : Nat := 1

def DISABLE : Nat := 2

end statusMap

/-- Upstream page size (`defaultCount` in `constants.ts`). -/
def defaultCount : Nat := 20

/-- Recognised feed document types (`feedTypes` in `constants.ts`). -/
def feedTypes : List String := ["rss", "atom", "json"]

/-- MIME type per document type (`feedMimeTypeMap` in `constants.ts`);
`none` models a key that is absent from the object. -/
def feedMimeTypeMap : String → Option String
  | "rss" => some "application/rss+xml; charset=utf-8"
  | "atom" => some "application/atom+xml; charset=utf-8"
  | "json" => some "application/feed+json; charset=utf-8"
  | _ => none

/-! ## Basic string/JS helpers -/

/-- JavaScript `s.includes(pat)`: `pat` occurs as a contiguous substring. -/
def strIncludes (s pat : String) : Bool := decide (pat.toList <:+: s.toList)

/-- JavaScript `a || b` on strings (empty string is falsy). -/
def jsOrString (a b : String) : String := if a == "" then b else a

/-! ## Data model (rows of `apps/worker/schema.sql`) -/

/-- A row of the `accounts` table. -/
structure AccountRow where
  id : String
  token : String
  name : String
  status : Nat
  created_at : Nat
  updated_at : Nat
deriving Repr, DecidableEq

/-- A row of the `feeds` table (`has_history` is an `Int` because the
synthetic all-articles feed uses `-1`). -/
structure FeedRow where
  id : String
  mp_name : String
  mp_cover : String
  mp_intro : String
  status : Nat
  sync_time : Nat
  update_time : Nat
  has_history : Int
  created_at : Nat
  updated_at : Nat
deriving Repr, DecidableEq

/-- A row of the `articles` table. -/
structure ArticleRow where
  id : String
  mp_id : String
  title : String
  pic_url : String
  publish_time : Nat
  created_at : Nat
  updated_at : Nat
deriving Repr, DecidableEq

/-- An article summary as returned by the upstream platform
(`{id, title, picUrl, publishTime}`). -/
structure Article where
  id : String
  title : String
  picUrl : String
  publishTime : Nat
deriving Repr, DecidableEq

/-! ## Process state of `trpc-service.ts` (src/unnamed/part_002) -/

/-- Association-list lookup, modelling `Map.prototype.get`. -/
def lookupMap (m : List (String × List String)) (k : String) :
    Option (List String) :=
  (m.find? (fun e => e.1 == k)).map (fun e => e.2)

/-- Association-list update, modelling `Map.prototype.set`. -/
def mapSet (m : List (String × List String)) (k : String) (v : List String) :
    List (String × List String) :=
  if m.any (fun e => e.1 == k) then
    m.map (fun e => if e.1 == k then (k, v) else e)
  else m ++ [(k, v)]

/-- The in-memory state touched by credential selection and error handling:
the `accounts` table plus the process-local `blockedAccountsMap`
(date string → blocked credential ids). -/
structure SyncState where
  accounts : List AccountRow
  blockedAccountsMap : List (String × List String)
deriving Repr, DecidableEq

/-- `getBlockedAccountIds`: today's blocklist entry with falsy (empty)
ids filtered out (`.filter(Boolean)` in the source). -/
def getBlockedAccountIds (st : SyncState) (today : String) : List String :=
  ((lookupMap st.blockedAccountsMap today).getD []).filter (fun s => s != "")

/-- `removeBlockedAccount`: drop `id` from today's blocklist entry,
doing nothing when the entry is absent. -/
def removeBlockedAccount (st : SyncState) (today id : String) : SyncState :=
  match lookupMap st.blockedAccountsMap today with
  | none => st
  | some blockedAccounts =>
    { st with
      blockedAccountsMap :=
        mapSet st.blockedAccountsMap today
          (blockedAccounts.filter (fun item => item != id)) }

/-- `updateAccount(db, id, { status })`:
`UPDATE accounts SET status = ?, updated_at = ? WHERE id = ?`. -/
def updateAccountStatus (tbl : List AccountRow) (id : String) (status : Nat)
    (now : Nat) : List AccountRow :=
  tbl.map (fun a =>
    if a.id == id then { a with status := status, updated_at := now } else a)

/-- `updateAccount(db, id, { token, name, status })`:
`UPDATE accounts SET token = ?, name = ?, status = ?, updated_at = ? WHERE id = ?`. -/
def updateAccountFull (tbl : List AccountRow) (id token name : String)
    (status now : Nat) : List AccountRow :=
  tbl.map (fun a =>
    if a.id == id then
      { a with token := token, name := name, status := status,
               updated_at := now }
    else a)

/-- `handleAccountError` (src/unnamed/part_002, lines 98-108): a message
containing `WeReadError401` marks the account invalid; otherwise a message
containing `WeReadError429` appends the account to today's blocklist;
any other message leaves the state untouched. -/
def handleAccountError (st : SyncState) (today accountId message : String)
    (now : Nat) : SyncState :=
  let blockedAccounts := (lookupMap st.blockedAccountsMap today).getD []
  if strIncludes message "WeReadError401" then
    { st with
      accounts := updateAccountStatus st.accounts accountId statusMap.INVALID now }
  else if strIncludes message "WeReadError429" then
    { st with
      blockedAccountsMap :=
        mapSet st.blockedAccountsMap today (blockedAccounts ++ [accountId]) }
  else st

/-! ## Credential selection (`getAvailableAccounts` / `getAvailableAccount`) -/

/-- Insertion of one row into a list sorted ascending by `created_at`. -/
def insertByCreatedAt (a : AccountRow) : List AccountRow → List AccountRow
  | [] => [a]
  | b :: t =>
    if a.created_at ≤ b.created_at then a :: b :: t
    else b :: insertByCreatedAt a t

/-- `ORDER BY created_at ASC` over the rows (insertion sort; ties are in an
unspecified order, exactly as in SQL). -/
def sortByCreatedAt (l : List AccountRow) : List AccountRow :=
  l.foldr insertByCreatedAt []

/-- The `WHERE status = ? AND id NOT IN (...)` filter of
`getAvailableAccounts` (db-queries.ts, lines 488-504). -/
def candidateAccounts (tbl : List AccountRow) (blockedIds : List String) :
    List AccountRow :=
  tbl.filter (fun a =>
    a.status == statusMap.ENABLE && !(blockedIds.contains a.id))

/-- `getAvailableAccounts` (db-queries.ts, lines 488-504):
`SELECT ... FROM accounts WHERE status = 1 AND id NOT IN (blocked)
ORDER BY created_at ASC LIMIT 10`. -/
def getAvailableAccounts (tbl : List AccountRow) (blockedIds : List String) :
    List AccountRow :=
  (sortByCreatedAt (candidateAccounts tbl blockedIds)).take 10

/-- Placeholder row for the (unreachable) out-of-bounds array access. -/
def defaultAccountRow : AccountRow :=
  { id := "", token := "", name := "", status := 0, created_at := 0,
    updated_at := 0 }

/-- The selection failure `throw new Error('暂无可用读书账号!')`. -/
inductive SelectError where
  | NoCredentialAvailable : SelectError
deriving Repr, DecidableEq

/-- `Math.floor(r * n)` for a random draw `r ∈ [0, 1)`. -/
def pickIndex (r : ℚ) (n : Nat) : Nat := (⌊r * (n : ℚ)⌋).toNat

/-- `getAvailableAccount` (src/unnamed/part_002, lines 89-96): query the
candidate rows, fail when none, else return the row at
`Math.floor(Math.random() * accounts.length)`. -/
def getAvailableAccount (tbl : List AccountRow) (blockedIds : List String)
    (r : ℚ) : Except SelectError AccountRow :=
  let accounts := getAvailableAccounts tbl blockedIds
  if accounts.isEmpty then Except.error SelectError.NoCredentialAvailable
  else Except.ok (accounts.getD (pickIndex r accounts.length) defaultAccountRow)

/-! ## Article upsert (`db-queries.ts`, `upsertArticles`) -/

/-- One statement of the `upsertArticles` batch:
`INSERT INTO articles ... ON CONFLICT(id) DO UPDATE SET title, pic_url,
publish_time, mp_id, updated_at` — an existing row with the same `id` gets
its mutable fields replaced (keeping `created_at`), otherwise a fresh row is
inserted. -/
def upsertArticleRow (tbl : List ArticleRow) (mpId : String) (a : Article)
    (now : Nat) : List ArticleRow :=
  if tbl.any (fun r => r.id == a.id) then
    tbl.map (fun r =>
      if r.id == a.id then
        { r with title := a.title, pic_url := a.picUrl,
                 publish_time := a.publishTime, mp_id := mpId,
                 updated_at := now }
      else r)
  else
    tbl ++ [{ id := a.id, mp_id := mpId, title := a.title,
              pic_url := a.picUrl, publish_time := a.publishTime,
              created_at := now, updated_at := now }]

/-- `upsertArticles` (db-queries.ts, lines 449-486): the batch of upsert
statements, one per fetched article. -/
def upsertArticles (tbl : List ArticleRow) (mpId : String)
    (articles : List Article) (now : Nat) : List ArticleRow :=
  articles.foldl (fun t a => upsertArticleRow t mpId a now) tbl

/-! ## Single-feed sync (`refreshMpArticlesAndUpdateFeed`) -/

/-- The two durable tables the sync engine touches. -/
structure SyncDb where
  feeds : List FeedRow
  articles : List ArticleRow
deriving Repr, DecidableEq

/-- `updateFeed(db, id, { syncTime, hasHistory })`:
`UPDATE feeds SET sync_time = ?, has_history = ?, updated_at = ? WHERE id = ?`. -/
def updateFeedSyncTimeHasHistory (feeds : List FeedRow) (id : String)
    (syncTime : Nat) (hasHistory : Int) (now : Nat) : List FeedRow :=
  feeds.map (fun f =>
    if f.id == id then
      { f with sync_time := syncTime, has_history := hasHistory,
               updated_at := now }
    else f)

/-- `refreshMpArticlesAndUpdateFeed` (src/unnamed/part_002, lines 142-160),
cut at the fetch boundary: `articles` is the page `getMpArticles` returned.
Non-empty pages are upserted, then the feed row gets `sync_time := nowSec`
and `has_history := articles.length < defaultCount ? 0 : 1`. -/
def refreshMpArticlesAndUpdateFeed (db : SyncDb) (mpId : String)
    (articles : List Article) (nowSec nowMs : Nat) : SyncDb × Int :=
  let db1 :=
    if articles.length > 0 then
      { db with articles := upsertArticles db.articles mpId articles nowMs }
    else db
  let hasHistory : Int := if articles.length < defaultCount then 0 else 1
  ({ db1 with
      feeds := updateFeedSyncTimeHasHistory db1.feeds mpId nowSec hasHistory nowMs },
   hasHistory)

/-! ## Article-page fetch with retries (`getMpArticles`) -/

/-- The failure `getMpArticles` surfaces: either the selection failure (the
`getAvailableAccount` call sits outside the `try`) or the last fetch error. -/
inductive GetArticlesError where
  | noAccount : GetArticlesError
  | fetchFail (message : String) : GetArticlesError
deriving Repr, DecidableEq

/-- One attempt of `getMpArticles`: select a credential (fails without
retry when none is available), then perform the fetch, whose outcome the
environment oracle `fetchResult` resolves per attempt index. -/
inductive AttemptResult where
  | noAccount : AttemptResult
  | fetched (accountId : String) (articles : List Article) : AttemptResult
  | failed (accountId : String) (message : String) : AttemptResult
deriving Repr, DecidableEq

/-- Selection plus fetch of one attempt. -/
def attemptSelectFetch (st : SyncState) (today : String)
    (fetchResult : Nat → Except String (List Article)) (rand : Nat → ℚ)
    (attempt : Nat) : AttemptResult :=
  match getAvailableAccount st.accounts (getBlockedAccountIds st today)
      (rand attempt) with
  | Except.error _ => AttemptResult.noAccount
  | Except.ok account =>
    match fetchResult attempt with
    | Except.ok articles => AttemptResult.fetched account.id articles
    | Except.error msg => AttemptResult.failed account.id msg

/-- The recursion of `getMpArticles` (src/unnamed/part_002, lines 110-140)
over the remaining `retryCount`.  Returns the final state, the trace of
credential ids used (one per attempt) and the surfaced result.  On a fetch
failure the error is classified (`handleAccountError`), then the call
recurses with `retryCount - 1` — reselecting a credential from the updated
state — or rethrows the error once `retryCount` is `0`. -/
def getMpArticlesGo (today : String) (now : Nat)
    (fetchResult : Nat → Except String (List Article)) (rand : Nat → ℚ) :
    Nat → SyncState → Nat →
      SyncState × List String × Except GetArticlesError (List Article)
  | 0, st, attempt =>
    match attemptSelectFetch st today fetchResult rand attempt with
    | AttemptResult.noAccount =>
      (st, [], Except.error GetArticlesError.noAccount)
    | AttemptResult.fetched accId articles => (st, [accId], Except.ok articles)
    | AttemptResult.failed accId msg =>
      (handleAccountError st today accId msg now, [accId],
       Except.error (GetArticlesError.fetchFail msg))
  | rc + 1, st, attempt =>
    match attemptSelectFetch st today fetchResult rand attempt with
    | AttemptResult.noAccount =>
      (st, [], Except.error GetArticlesError.noAccount)
    | AttemptResult.fetched accId articles => (st, [accId], Except.ok articles)
    | AttemptResult.failed accId msg =>
      let st2 := handleAccountError st today accId msg now
      let r := getMpArticlesGo today now fetchResult rand rc st2 (attempt + 1)
      (r.1, accId :: r.2.1, r.2.2)

/-- `getMpArticles` with its default `retryCount = 3`. -/
def getMpArticles (st : SyncState) (today : String) (now : Nat)
    (fetchResult : Nat → Except String (List Article)) (rand : Nat → ℚ) :
    SyncState × List String × Except GetArticlesError (List Article) :=
  getMpArticlesGo today now fetchResult rand 3 st 0

/-- The state reached after the first `i` attempts (each failed attempt runs
`handleAccountError`; a success or selection failure stops the evolution). -/
def stateAfterAttempts (today : String) (now : Nat)
    (fetchResult : Nat → Except String (List Article)) (rand : Nat → ℚ) :
    SyncState → Nat → Nat → SyncState
  | st, _, 0 => st
  | st, attempt, i + 1 =>
    match attemptSelectFetch st today fetchResult rand attempt with
    | AttemptResult.failed accId msg =>
      stateAfterAttempts today now fetchResult rand
        (handleAccountError st today accId msg now) (attempt + 1) i
    | _ => st

/-! ## All-feeds sync guard (`refreshAllMpArticlesAndUpdateFeed`) -/

/-- Process state of the all-feeds sweep: the
`isRefreshAllMpArticlesRunning` flag plus the database. -/
structure AllSyncState where
  running : Bool
  db : SyncDb
deriving Repr, DecidableEq

/-- The synchronous prefix of `refreshAllMpArticlesAndUpdateFeed`
(src/unnamed/part_002, lines 213-228): check the flag — returning at once
when it is set — else set it.  The returned Bool says whether the body runs. -/
def refreshAllEnter (st : AllSyncState) : AllSyncState × Bool :=
  if st.running then (st, false) else ({ st with running := true }, true)

/-- The guarded body plus its `finally`: run the sweep (the `for` loop over
`listAllFeeds`, which may throw), then clear the flag on either outcome.
`sweep` returns the database as the loop left it plus the propagated
outcome. -/
def refreshAllFinish (sweep : SyncDb → SyncDb × Except String Unit)
    (st : AllSyncState) : AllSyncState × Except String Unit :=
  let r := sweep st.db
  ({ running := false, db := r.1 }, r.2)

/-- One full invocation of `refreshAllMpArticlesAndUpdateFeed`.  The middle
component reports whether this invocation executed the sweep. -/
def refreshAllMpArticlesAndUpdateFeed
    (sweep : SyncDb → SyncDb × Except String Unit) (st : AllSyncState) :
    AllSyncState × Bool × Except String Unit :=
  let e := refreshAllEnter st
  if e.2 then
    let f := refreshAllFinish sweep e.1
    (f.1, true, f.2)
  else (e.1, false, Except.ok ())

/-- Two back-to-back invocations under the single-threaded event loop: the
first call runs its synchronous prefix (flag check/set) before suspending at
its first `await`; the second call then runs; finally the first call's body
resumes.  Components: final state, (ran?, outcome) of call one, (ran?,
outcome) of call two. -/
def twoBackToBackCalls (sweep : SyncDb → SyncDb × Except String Unit)
    (st : AllSyncState) :
    AllSyncState × (Bool × Except String Unit) × (Bool × Except String Unit) :=
  let e := refreshAllEnter st
  if e.2 then
    let c2 := refreshAllMpArticlesAndUpdateFeed sweep e.1
    let f := refreshAllFinish sweep c2.1
    (f.1, (true, f.2), (c2.2.1, c2.2.2))
  else
    let c2 := refreshAllMpArticlesAndUpdateFeed sweep e.1
    (c2.1, (false, Except.ok ()), (c2.2.1, c2.2.2))

/-! ## Deep-history sync (`getHistoryMpArticles`) -/

/-- `getFeedById`: `SELECT ... FROM feeds WHERE id = ?` (first row). -/
def getFeedById (feeds : List FeedRow) (id : String) : Option FeedRow :=
  feeds.find? (fun f => f.id == id)

/-- `countArticlesByMpId`: `SELECT COUNT(*) FROM articles WHERE mp_id = ?`. -/
def countArticlesByMpId (articles : List ArticleRow) (mpId : String) : Nat :=
  articles.countP (fun a => a.mp_id == mpId)

/-- `Math.ceil(total / defaultCount)` on naturals: the starting page of the
deep-history walk. -/
def startHistoryPage (total : Nat) : Nat :=
  (total + defaultCount - 1) / defaultCount

/-- The `while (i-- > 0)` loop of `getHistoryMpArticles`: fetch the current
page through `refreshMpArticlesAndUpdateFeed`, stop when the returned
`hasHistory` drops below 1, else advance the page.  `fetchPage` is the
oracle giving the article page the upstream returns for each page number.
Returns the final database and the trace of fetched page numbers. -/
def historyLoop (mpId : String) (fetchPage : Nat → List Article)
    (nowSec nowMs : Nat) : Nat → SyncDb → Nat → SyncDb × List Nat
  | _, db, 0 => (db, [])
  | page, db, fuel + 1 =>
    let r := refreshMpArticlesAndUpdateFeed db mpId (fetchPage page) nowSec nowMs
    if r.2 < 1 then (r.1, [page])
    else
      let rest := historyLoop mpId fetchPage nowSec nowMs (page + 1) r.1 fuel
      (rest.1, page :: rest.2)

/-- `getHistoryMpArticles` (src/unnamed/part_002, lines 162-207) for a single
run (no concurrent preemption, so the marker comparison inside the loop
always passes): return at once when the marker already carries this feed id,
when the feed does not exist, or when its `has_history` is already 0;
otherwise walk pages from `Math.ceil(total / defaultCount)` with the
iteration cap 1000. -/
def getHistoryMpArticles (db : SyncDb) (markerId mpId : String)
    (fetchPage : Nat → List Article) (nowSec nowMs : Nat) :
    SyncDb × List Nat :=
  if markerId == mpId then (db, [])
  else
    match getFeedById db.feeds mpId with
    | none => (db, [])
    | some feed =>
      if feed.has_history == 0 then (db, [])
      else
        let total := countArticlesByMpId db.articles mpId
        historyLoop mpId fetchPage nowSec nowMs (startHistoryPage total) db 1000

/-! ## Re-authentication polling (`tryRefreshAccountFromLogin`) -/

/-- The JSON body a login poll resolves to
(`{message, vid?, token?, username?}`). -/
structure LoginResult where
  message : String
  vid : Option Nat
  token : Option String
  username : Option String
deriving Repr, DecidableEq

/-- JS truthiness of `loginResult?.vid` (absent or 0 is falsy). -/
def truthyVid (o : Option Nat) : Bool :=
  match o with
  | none => false
  | some n => n != 0

/-- JS truthiness of `loginResult?.token` (absent or empty is falsy). -/
def truthyToken (o : Option String) : Bool :=
  match o with
  | none => false
  | some s => s != ""

/-- A poll result that ends the loop: identity and token both present. -/
def isTerminalLogin (lr : LoginResult) : Bool :=
  truthyVid lr.vid && truthyToken lr.token

/-- The state change on an identity match: install the fresh token
(`updateAccount` with token, name `loginResult.username || account.name`,
status ENABLE) and clear the credential from today's blocklist. -/
def applyLoginUpdate (st : SyncState) (today accountId accountName : String)
    (lr : LoginResult) (now : Nat) : SyncState :=
  let st1 :=
    { st with
      accounts :=
        updateAccountFull st.accounts accountId (lr.token.getD "")
          (jsOrString (lr.username.getD "") accountName) statusMap.ENABLE now }
  removeBlockedAccount st1 today accountId

/-- Outcome of a polling run: final state, number of polls performed, trace
of pauses (ms) slept between polls, and whether a poll threw (the `catch`
swallows it, so the caller never sees an error). -/
structure RefreshRunResult where
  st : SyncState
  polls : Nat
  sleeps : List Nat
  raised : Bool
deriving Repr, DecidableEq

/-- The `for (attempt = 0; attempt < maxAttempts; attempt++)` loop of
`tryRefreshAccountFromLogin` (db-queries.ts, lines 670-696).  `polls` is the
oracle resolving each `getLoginResult` call: `Except.error` models a thrown
request failure.  A terminal result (vid and token both truthy) updates the
account exactly when `String(vid)` equals the credential id, then returns;
a non-terminal result sleeps 5000 ms and polls again. -/
def tryRefreshLoopGo (today accountId accountName : String) (now : Nat)
    (polls : Nat → Except String LoginResult) (st : SyncState) :
    Nat → Nat → RefreshRunResult
  | _, 0 => { st := st, polls := 0, sleeps := [], raised := false }
  | attempt, fuel + 1 =>
    match polls attempt with
    | Except.error _ => { st := st, polls := 1, sleeps := [], raised := true }
    | Except.ok lr =>
      if isTerminalLogin lr then
        if toString (lr.vid.getD 0) == accountId then
          { st := applyLoginUpdate st today accountId accountName lr now,
            polls := 1, sleeps := [], raised := false }
        else { st := st, polls := 1, sleeps := [], raised := false }
      else
        let r := tryRefreshLoopGo today accountId accountName now polls st
          (attempt + 1) fuel
        { st := r.st, polls := r.polls + 1, sleeps := 5000 :: r.sleeps,
          raised := r.raised }

/-- `tryRefreshAccountFromLogin` with its `maxAttempts = 60`;  the
surrounding `try`/`catch` makes the function total — a thrown poll is
reported through the `raised` flag only. -/
def tryRefreshAccountFromLogin (st : SyncState)
    (today accountId accountName : String) (now : Nat)
    (polls : Nat → Except String LoginResult) : RefreshRunResult :=
  tryRefreshLoopGo today accountId accountName now polls st 0 60

/-! ## Account health probe (`account-check.ts`, `checkAccountValidity`) -/

/-- Outcome of the probe request as the `catch` block observes it:
a successful response, an HTTP error carrying the reported status and the
optional `data.message` of the JSON body, or a network failure
(no `status`, no `data`). -/
inductive ProbeOutcome where
  | success : ProbeOutcome
  | httpError (status : Nat) (dataMessage : Option String) : ProbeOutcome
  | networkError : ProbeOutcome
deriving Repr, DecidableEq

/-- `checkAccountValidity` (account-check.ts, lines 38-65): `true` means the
credential is judged still valid.  Only a 401 status or an error body whose
message contains `WeReadError401` yields `false`; a 404 and every other
failure are treated as still valid. -/
def checkAccountValidity : ProbeOutcome → Bool
  | .success => true
  | .networkError => true
  | .httpError status dataMessage =>
    let errMsg := dataMessage.getD ""
    if status == 401 || strIncludes errMsg "WeReadError401" then false
    else if status == 404 then true
    else true

/-! ## Feed document type selection (`handleGenerateFeed`, src/unnamed/part_000) -/

/-- Which serializer of the `feed` library the switch statement picks. -/
inductive RenderKind where
  | rss2 : RenderKind
  | atom1 : RenderKind
  | json1 : RenderKind
deriving Repr, DecidableEq

/-- The document-type handling slice of `handleGenerateFeed`
(src/unnamed/part_000, lines 154-156 and 216-224): an unrecognised type is
replaced by `atom`, then the switch picks the serializer and the MIME type
for the normalised type. -/
def handleGenerateFeedType (t : String) : RenderKind × Option String :=
  let type := if t ∈ feedTypes then t else "atom"
  match type with
  | "rss" => (RenderKind.rss2, feedMimeTypeMap "rss")
  | "json" => (RenderKind.json1, feedMimeTypeMap "json")
  | _ => (RenderKind.atom1, feedMimeTypeMap type)

/-! ## Concrete inputs used by witnesses and counterexamples -/

/-- An enabled, unblocked account row with a given id and creation time. -/
def mkAccount (id : String) (created : Nat) : AccountRow :=
  { id := id, token := "tok", name := "nm", status := statusMap.ENABLE,
    created_at := created, updated_at := 0 }

/-- Eleven valid accounts (none blocked): more candidates than `LIMIT 10`
admits. -/
def elevenAccounts : List AccountRow :=
  [mkAccount "a01" 1, mkAccount "a02" 2, mkAccount "a03" 3,
   mkAccount "a04" 4, mkAccount "a05" 5, mkAccount "a06" 6,
   mkAccount "a07" 7, mkAccount "a08" 8, mkAccount "a09" 9,
   mkAccount "a10" 10, mkAccount "a11" 11]

/-- First version of the twice-upserted article. -/
def c9Art1 : Article :=
  { id := "x", title := "t1", picUrl := "p", publishTime := 1 }

/-- Second version of the twice-upserted article: same id, new title. -/
def c9Art2 : Article :=
  { id := "x", title := "t2", picUrl := "p2", publishTime := 2 }

/-- A feed row that has already exhausted its history
(`has_history = 0`). -/
def c2Feed : FeedRow :=
  { id := "f", mp_name := "n", mp_cover := "c", mp_intro := "i",
    status := statusMap.ENABLE, sync_time := 0, update_time := 0,
    has_history := 0, created_at := 0, updated_at := 0 }

/-- A full upstream page: exactly `defaultCount` articles. -/
def c2FullPage : List Article :=
  List.replicate defaultCount
    { id := "art", title := "t", picUrl := "p", publishTime := 3 }

/-- State with one valid account, for the retry witness. -/
def c4State : SyncState :=
  { accounts := [mkAccount "A" 1], blockedAccountsMap := [] }

/-- A fetch oracle that fails every attempt with an unclassified error. -/
def c4Fetch : Nat → Except String (List Article) := fun _ =>
  Except.error "boom"

/-- A degenerate random draw. -/
def c4Rand : Nat → ℚ := fun _ => 0

/-- A login poll still waiting for the operator to scan. -/
def c7Waiting : LoginResult :=
  { message := "waiting", vid := none, token := none, username := none }

/-- A terminal login poll: identity 42 with a fresh token. -/
def c7Terminal : LoginResult :=
  { message := "ok", vid := some 42, token := some "abc",
    username := some "bob" }

/-- A poll oracle answering `waiting` five times, then the terminal
result. -/
def c7Polls : Nat → Except String LoginResult := fun attempt =>
  if attempt < 5 then Except.ok c7Waiting else Except.ok c7Terminal

/-- The invalid credential `42`'s account row. -/
def c7Account : AccountRow :=
  { id := "42", token := "old", name := "acc",
    status := statusMap.INVALID, created_at := 1, updated_at := 1 }

/-- State holding the invalid credential `42`, blocked today. -/
def c7State : SyncState :=
  { accounts := [c7Account],
    blockedAccountsMap := [("2024-01-01", ["42"])] }

/-- A feed with history remaining, for the deep-history witness. -/
def c6Feed : FeedRow :=
  { id := "f", mp_name := "n", mp_cover := "c", mp_intro := "i",
    status := statusMap.ENABLE, sync_time := 0, update_time := 0,
    has_history := 1, created_at := 0, updated_at := 0 }

/-- One stored article of the deep-history witness feed. -/
def c6ArticleRow : ArticleRow :=
  { id := "a", mp_id := "f", title := "t", pic_url := "p",
    publish_time := 1, created_at := 0, updated_at := 0 }

/-- A database holding the witness feed with 45 stored articles. -/
def c6Db : SyncDb :=
  { feeds := [c6Feed], articles := List.replicate 45 c6ArticleRow }

/-! # Theorems -/

/-! ## Shared helper lemmas -/

/-- Setting a key makes it the value `lookupMap` then finds. -/
theorem lookupMap_mapSet_self (m : List (String × List String)) (k : String)
    (v : List String) : lookupMap (mapSet m k v) k = some v := by
  unfold mapSet
  by_cases h : m.any (fun e => e.1 == k)
  · rw [if_pos h]
    induction m with
    | nil => simp at h
    | cons e t ih =>
      by_cases he : e.1 == k
      · simp [lookupMap, List.find?, he]
      · simp only [List.any_cons, he, Bool.false_or] at h
        simp only [List.map_cons, if_neg he]
        simpa [lookupMap, List.find?, he] using ih h
  · rw [if_neg h]
    induction m with
    | nil => simp [lookupMap, List.find?]
    | cons e t ih =>
      simp only [List.any_cons, Bool.or_eq_true, not_or] at h
      simp only [List.cons_append]
      simpa [lookupMap, List.find?, h.1] using ih h.2

/-- The ids of the table after one upsert: unchanged when the id was present,
extended by the new id otherwise. -/
theorem upsertArticleRow_map_id (tbl : List ArticleRow) (mpId : String)
    (a : Article) (now : Nat) :
    (upsertArticleRow tbl mpId a now).map (fun r => r.id)
      = if tbl.any (fun r => r.id == a.id) then tbl.map (fun r => r.id)
        else tbl.map (fun r => r.id) ++ [a.id] := by
  unfold upsertArticleRow
  by_cases h : tbl.any (fun r => r.id == a.id)
  · rw [if_pos h, if_pos h, List.map_map]
    refine List.map_congr_left (fun r _ => ?_)
    simp only [Function.comp]
    split <;> rfl
  · rw [if_neg h, if_neg h]
    simp

/-- Id-uniqueness of the articles table survives one upsert. -/
theorem upsertArticleRow_nodup (tbl : List ArticleRow) (mpId : String)
    (a : Article) (now : Nat)
    (hnodup : (tbl.map (fun r => r.id)).Nodup) :
    ((upsertArticleRow tbl mpId a now).map (fun r => r.id)).Nodup := by
  rw [upsertArticleRow_map_id]
  by_cases h : tbl.any (fun r => r.id == a.id)
  · rwa [if_pos h]
  · rw [if_neg h]
    have hnotin : a.id ∉ tbl.map (fun r => r.id) := by
      intro hmem
      rcases List.mem_map.mp hmem with ⟨r, hr, hid⟩
      exact h (List.any_eq_true.mpr ⟨r, hr, by simp [hid]⟩)
    simp [List.nodup_append, hnodup, hnotin]

/-- After one upsert a table with unique ids holds exactly one row with the
upserted id. -/
theorem upsertArticleRow_countP (tbl : List ArticleRow) (mpId : String)
    (a : Article) (now : Nat)
    (hnodup : (tbl.map (fun r => r.id)).Nodup) :
    (upsertArticleRow tbl mpId a now).countP (fun r => r.id == a.id) = 1 := by
  have hc : (upsertArticleRow tbl mpId a now).countP (fun r => r.id == a.id)
      = ((upsertArticleRow tbl mpId a now).map (fun r => r.id)).countP
          (fun x => x == a.id) := by
    rw [List.countP_map]
    rfl
  rw [hc, upsertArticleRow_map_id]
  by_cases h : tbl.any (fun r => r.id == a.id)
  · rw [if_pos h]
    rcases List.any_eq_true.mp h with ⟨r, hr, hid⟩
    have hmem : a.id ∈ tbl.map (fun r => r.id) :=
      List.mem_map.mpr ⟨r, hr, by simpa using hid⟩
    simpa [List.count] using List.count_eq_one_of_mem hnodup hmem
  · rw [if_neg h]
    have hnotin : a.id ∉ tbl.map (fun r => r.id) := by
      intro hmem
      rcases List.mem_map.mp hmem with ⟨r, hr, hid⟩
      exact h (List.any_eq_true.mpr ⟨r, hr, by simp [hid]⟩)
    have h0 : (tbl.map (fun r => r.id)).countP (fun x => x == a.id) = 0 := by
      simpa [List.count] using List.count_eq_zero_of_not_mem hnotin
    simp [List.countP_append, h0]

/-- When the id was already present, every row of the upserted table that
carries the upserted id carries the new title. -/
theorem upsertArticleRow_mem_title (tbl : List ArticleRow) (mpId : String)
    (a : Article) (now : Nat)
    (hany : tbl.any (fun r => r.id == a.id) = true) :
    ∀ r ∈ upsertArticleRow tbl mpId a now, r.id = a.id → r.title = a.title := by
  intro r hr hid
  unfold upsertArticleRow at hr
  rw [if_pos hany] at hr
  rcases List.mem_map.mp hr with ⟨r0, _, hr0eq⟩
  by_cases hcase : r0.id == a.id
  · rw [if_pos hcase] at hr0eq
    rw [← hr0eq]
  · rw [if_neg hcase] at hr0eq
    subst hr0eq
    exact absurd (by simp [hid]) hcase

/-! ## C9 -/

/-- C9: upserting an article into a table with unique ids never creates a
second row for its id (uniqueness and a single matching row survive), an
existing row gets its title, picture URL, publish time and owning feed id
replaced and `updated_at` touched (keeping `created_at`), and after
upserting the same article id twice with different titles exactly one row
with that id exists and it carries the latest title. -/
theorem c9_upsertArticles_upsert_semantics (tbl : List ArticleRow)
    (mpId : String) (a : Article) (now : Nat)
    (hnodup : (tbl.map (fun r => r.id)).Nodup) :
    ((upsertArticles tbl mpId [a] now).map (fun r => r.id)).Nodup
    ∧ (upsertArticles tbl mpId [a] now).countP (fun r => r.id == a.id) = 1
    ∧ (∀ r ∈ tbl, r.id = a.id →
        { r with title := a.title, pic_url := a.picUrl,
                 publish_time := a.publishTime, mp_id := mpId,
                 updated_at := now } ∈ upsertArticles tbl mpId [a] now)
    ∧ ∀ (a2 : Article) (mpId2 : String) (now2 : Nat), a2.id = a.id →
        (upsertArticles (upsertArticles tbl mpId [a] now) mpId2 [a2]
            now2).countP (fun r => r.id == a.id) = 1
        ∧ ∀ r ∈ upsertArticles (upsertArticles tbl mpId [a] now) mpId2 [a2]
            now2, r.id = a.id → r.title = a2.title := by
  have hone : upsertArticles tbl mpId [a] now = upsertArticleRow tbl mpId a now := rfl
  refine ⟨?_, ?_, ?_, ?_⟩
  · rw [hone]; exact upsertArticleRow_nodup tbl mpId a now hnodup
  · rw [hone]; exact upsertArticleRow_countP tbl mpId a now hnodup
  · intro r hr hid
    rw [hone]
    unfold upsertArticleRow
    rw [if_pos (List.any_eq_true.mpr ⟨r, hr, by simp [hid]⟩)]
    refine List.mem_map.mpr ⟨r, hr, ?_⟩
    rw [if_pos (by simp [hid])]
  · intro a2 mpId2 now2 hid2
    have hone2 : upsertArticles (upsertArticleRow tbl mpId a now) mpId2 [a2] now2
        = upsertArticleRow (upsertArticleRow tbl mpId a now) mpId2 a2 now2 := rfl
    have hnodup1 := upsertArticleRow_nodup tbl mpId a now hnodup
    have hany : (upsertArticleRow tbl mpId a now).any
        (fun r => r.id == a2.id) = true := by
      have h1 := upsertArticleRow_countP tbl mpId a now hnodup
      have hpos : 0 < (upsertArticleRow tbl mpId a now).countP
          (fun r => r.id == a.id) := by omega
      rcases List.countP_pos_iff.mp hpos with ⟨r0, hr0, hp0⟩
      exact List.any_eq_true.mpr ⟨r0, hr0, by simp_all [hid2]⟩
    constructor
    · rw [hone, hone2, ← hid2]
      exact upsertArticleRow_countP _ mpId2 a2 now2 hnodup1
    · intro r hr hid
      rw [hone, hone2] at hr
      exact upsertArticleRow_mem_title _ mpId2 a2 now2 hany r hr
        (hid.trans hid2.symm)

/-- C9 witness: inserting article id `x` with title `t1` into an empty table
and then upserting id `x` with title `t2` leaves exactly one row, titled
`t2`. -/
theorem c9_witness :
    (upsertArticles (upsertArticles [] "mp" [c9Art1] 5) "mp" [c9Art2]
        6).countP (fun r => r.id == c9Art1.id) = 1
    ∧ (upsertArticles (upsertArticles [] "mp" [c9Art1] 5) "mp" [c9Art2]
        6).map (fun r => r.title) = ["t2"] :=
  ⟨((c9_upsertArticles_upsert_semantics [] "mp" c9Art1 5
      (by decide)).2.2.2 c9Art2 "mp" 6 rfl).1, by decide⟩

/-! ## C3 -/

/-- C3: `handleAccountError` classifies an upstream error for credential X so
that an unauthorized signal (message containing `WeReadError401`) sets X's
status to invalid without touching the blocklist, a rate-limited signal
(message containing `WeReadError429`, and not the 401 marker) appends X to
today's blocklist without touching any account row, and every other message
leaves the whole state unchanged. -/
theorem c3_handleAccountError_classification
    (st : SyncState) (today accountId message : String) (now : Nat) :
    (strIncludes message "WeReadError401" = true →
      (handleAccountError st today accountId message now).blockedAccountsMap
          = st.blockedAccountsMap
      ∧ (∀ a ∈ st.accounts, a.id = accountId →
          { a with status := statusMap.INVALID, updated_at := now }
            ∈ (handleAccountError st today accountId message now).accounts)
      ∧ (∀ a ∈ st.accounts, a.id ≠ accountId →
          a ∈ (handleAccountError st today accountId message now).accounts))
    ∧ (strIncludes message "WeReadError401" = false →
       strIncludes message "WeReadError429" = true →
      (handleAccountError st today accountId message now).accounts
          = st.accounts
      ∧ lookupMap
          (handleAccountError st today accountId message now).blockedAccountsMap
          today
          = some ((lookupMap st.blockedAccountsMap today).getD []
              ++ [accountId]))
    ∧ (strIncludes message "WeReadError401" = false →
       strIncludes message "WeReadError429" = false →
      handleAccountError st today accountId message now = st) := by
  refine ⟨fun h401 => ?_, fun h401 h429 => ?_, fun h401 h429 => ?_⟩
  · refine ⟨by simp [handleAccountError, h401], fun a ha hid => ?_,
      fun a ha hid => ?_⟩
    · simp only [handleAccountError, h401, if_true]
      simp only [updateAccountStatus, List.mem_map]
      exact ⟨a, ha, by simp [hid]⟩
    · simp only [handleAccountError, h401, if_true]
      simp only [updateAccountStatus, List.mem_map]
      refine ⟨a, ha, ?_⟩
      rw [if_neg]
      simp [hid]
  · refine ⟨by simp [handleAccountError, h401, h429], ?_⟩
    simp only [handleAccountError, h401, h429, Bool.false_eq_true, if_false,
      if_true]
    exact lookupMap_mapSet_self _ _ _
  · simp [handleAccountError, h401, h429]

/-! ## C1 -/

/-- Membership through insertion. -/
theorem insertByCreatedAt_mem (a : AccountRow) (l : List AccountRow)
    (x : AccountRow) : x ∈ insertByCreatedAt a l ↔ x = a ∨ x ∈ l := by
  induction l with
  | nil => simp [insertByCreatedAt]
  | cons b t ih =>
    unfold insertByCreatedAt
    by_cases h : a.created_at ≤ b.created_at
    · simp [h]
    · rw [if_neg h]
      simp only [List.mem_cons, ih]
      tauto

/-- Length through insertion. -/
theorem insertByCreatedAt_length (a : AccountRow) (l : List AccountRow) :
    (insertByCreatedAt a l).length = l.length + 1 := by
  induction l with
  | nil => rfl
  | cons b t ih =>
    unfold insertByCreatedAt
    by_cases h : a.created_at ≤ b.created_at
    · simp [h]
    · rw [if_neg h]
      simp [ih]

/-- Sorting preserves membership. -/
theorem sortByCreatedAt_mem (l : List AccountRow) (x : AccountRow) :
    x ∈ sortByCreatedAt l ↔ x ∈ l := by
  induction l with
  | nil => simp [sortByCreatedAt]
  | cons b t ih =>
    show x ∈ insertByCreatedAt b (sortByCreatedAt t) ↔ _
    rw [insertByCreatedAt_mem]
    simp only [List.mem_cons, ih]

/-- Sorting preserves length. -/
theorem sortByCreatedAt_length (l : List AccountRow) :
    (sortByCreatedAt l).length = l.length := by
  induction l with
  | nil => rfl
  | cons b t ih =>
    show (insertByCreatedAt b (sortByCreatedAt t)).length = _
    rw [insertByCreatedAt_length, ih]
    rfl

/-- The random index stays within the candidate pool. -/
theorem pickIndex_lt (r : ℚ) (n : Nat) (h0 : 0 ≤ r) (h1 : r < 1)
    (hn : 0 < n) : pickIndex r n < n := by
  unfold pickIndex
  have hnq : (0:ℚ) < (n : ℚ) := by exact_mod_cast hn
  have hfl : ⌊r * (n : ℚ)⌋ < (n : ℤ) := by
    rw [Int.floor_lt]
    calc r * (n : ℚ) < 1 * (n : ℚ) := by
          exact mul_lt_mul_of_pos_right h1 hnq
      _ = (n : ℚ) := one_mul _
      _ = ((n : ℤ) : ℚ) := by norm_cast
  have hnn : 0 ≤ ⌊r * (n : ℚ)⌋ :=
    Int.floor_nonneg.mpr (mul_nonneg h0 hnq.le)
  omega

/-- `Math.floor(r * n)` picks index `i` exactly on the interval
`[i/n, (i+1)/n)`: each of the `n` indices receives a slice of equal
length `1/n` of the random draw, i.e. the choice is uniform. -/
theorem pickIndex_uniform (r : ℚ) (n : Nat) (h0 : 0 ≤ r) (i : Nat)
    (hi : i < n) :
    pickIndex r n = i
      ↔ (i : ℚ) / (n : ℚ) ≤ r ∧ r < ((i : ℚ) + 1) / (n : ℚ) := by
  have hn : 0 < n := Nat.zero_lt_of_lt hi
  have hnq : (0:ℚ) < (n : ℚ) := by exact_mod_cast hn
  have hnn : 0 ≤ ⌊r * (n : ℚ)⌋ :=
    Int.floor_nonneg.mpr (mul_nonneg h0 hnq.le)
  unfold pickIndex
  constructor
  · intro h
    have hfl : ⌊r * (n : ℚ)⌋ = (i : ℤ) := by omega
    obtain ⟨hl, hr'⟩ := Int.floor_eq_iff.mp hfl
    constructor
    · rw [div_le_iff₀ hnq]
      exact_mod_cast hl
    · rw [lt_div_iff₀ hnq]
      push_cast at hr'
      linarith
  · rintro ⟨ha, hb⟩
    have hfl : ⌊r * (n : ℚ)⌋ = (i : ℤ) := by
      rw [Int.floor_eq_iff]
      constructor
      · have := (div_le_iff₀ hnq).mp ha
        exact_mod_cast this
      · have := (lt_div_iff₀ hnq).mp hb
        push_cast
        linarith
    omega

/-- C1 (amended): `getAvailableAccount` draws from the pool
`getAvailableAccounts` = the first 10 rows, ascending by `created_at`, of
the valid-and-not-blocked-today credentials (the SQL `LIMIT 10`); it fails
with `NoCredentialAvailable` exactly when the valid-minus-blocked set is
empty; any returned credential belongs to that pool — in particular it has
status valid and is not blocked today — and the random index is uniform
over the pool. -/
theorem c1_getAvailableAccount_selection (tbl : List AccountRow)
    (blockedIds : List String) (r : ℚ) (h0 : 0 ≤ r) (h1 : r < 1) :
    (getAvailableAccount tbl blockedIds r
        = Except.error SelectError.NoCredentialAvailable
      ↔ candidateAccounts tbl blockedIds = [])
    ∧ (∀ a, getAvailableAccount tbl blockedIds r = Except.ok a →
        a ∈ getAvailableAccounts tbl blockedIds
        ∧ a ∈ tbl ∧ a.status = statusMap.ENABLE
        ∧ blockedIds.contains a.id = false)
    ∧ ∀ i < (getAvailableAccounts tbl blockedIds).length,
        (pickIndex r (getAvailableAccounts tbl blockedIds).length = i
          ↔ (i : ℚ) / ((getAvailableAccounts tbl blockedIds).length : ℚ) ≤ r
            ∧ r < ((i : ℚ) + 1)
                / ((getAvailableAccounts tbl blockedIds).length : ℚ)) := by
  have hlen : (getAvailableAccounts tbl blockedIds).length
      = min 10 (candidateAccounts tbl blockedIds).length := by
    simp [getAvailableAccounts, List.length_take, sortByCreatedAt_length]
  have hempty : getAvailableAccounts tbl blockedIds = []
      ↔ candidateAccounts tbl blockedIds = [] := by
    rw [← List.length_eq_zero, ← List.length_eq_zero, hlen]
    omega
  refine ⟨?_, ?_, ?_⟩
  · unfold getAvailableAccount
    by_cases he : (getAvailableAccounts tbl blockedIds).isEmpty
    · rw [if_pos he]
      simp only [true_iff]
      exact hempty.mp (List.isEmpty_iff.mp he)
    · rw [if_neg he]
      constructor
      · intro hcontra; exact absurd hcontra (by simp)
      · intro hc
        exact absurd (List.isEmpty_iff.mpr (hempty.mpr hc)) he
  · intro a ha
    unfold getAvailableAccount at ha
    by_cases he : (getAvailableAccounts tbl blockedIds).isEmpty
    · rw [if_pos he] at ha; exact absurd ha (by simp)
    · rw [if_neg he] at ha
      have hlenpos : 0 < (getAvailableAccounts tbl blockedIds).length := by
        rcases Nat.eq_zero_or_pos (getAvailableAccounts tbl blockedIds).length
          with hz | hp
        · exact absurd (List.isEmpty_iff.mpr (List.length_eq_zero.mp hz)) he
        · exact hp
      have hidx := pickIndex_lt r _ h0 h1 hlenpos
      have hmem : a ∈ getAvailableAccounts tbl blockedIds := by
        have hget : (getAvailableAccounts tbl blockedIds).getD
            (pickIndex r (getAvailableAccounts tbl blockedIds).length)
            defaultAccountRow
            = (getAvailableAccounts tbl blockedIds).get
                ⟨pickIndex r (getAvailableAccounts tbl blockedIds).length,
                 hidx⟩ := by
          rw [List.getD_eq_getElem?_getD, List.getElem?_eq_getElem hidx]
          rfl
        have ha' : a = (getAvailableAccounts tbl blockedIds).get
            ⟨pickIndex r (getAvailableAccounts tbl blockedIds).length,
             hidx⟩ := by
          injection ha with h'
          rw [← h', hget]
        rw [ha']
        exact List.get_mem _ _ hidx
      have hcand : a ∈ candidateAccounts tbl blockedIds := by
        have h1' : a ∈ sortByCreatedAt (candidateAccounts tbl blockedIds) :=
          List.mem_of_mem_take hmem
        exact (sortByCreatedAt_mem _ _).mp h1'
      have hfil := List.mem_filter.mp hcand
      refine ⟨hmem, hfil.1, ?_, ?_⟩
      · have := hfil.2
        simp only [Bool.and_eq_true, beq_iff_eq, Bool.not_eq_true'] at this
        exact this.1
      · have := hfil.2
        simp only [Bool.and_eq_true, beq_iff_eq, Bool.not_eq_true'] at this
        exact this.2
  · intro i hi
    exact pickIndex_uniform r _ h0 i hi

/-- C1 counterexample: eleven valid, unblocked credentials — `a11` is in the
valid-minus-blocked set, yet the `LIMIT 10` query leaves it outside the pool
`getAvailableAccount` draws from, so selection does not consider the whole
candidate set. -/
theorem c1_counterexample :
    (mkAccount "a11" 11).status = statusMap.ENABLE
    ∧ (mkAccount "a11" 11) ∈ elevenAccounts
    ∧ (([] : List String).contains (mkAccount "a11" 11).id) = false
    ∧ (mkAccount "a11" 11) ∈ candidateAccounts elevenAccounts []
    ∧ (mkAccount "a11" 11) ∉ getAvailableAccounts elevenAccounts [] := by
  decide

/-- C1 witness: with eleven valid accounts of which one is blocked, the
selection at draw `r = 1/2` fails iff the candidate set is empty (it is
not). -/
theorem c1_witness :
    (getAvailableAccount elevenAccounts ["a05"] (1/2)
        = Except.error SelectError.NoCredentialAvailable
      ↔ candidateAccounts elevenAccounts ["a05"] = []) :=
  (c1_getAvailableAccount_selection elevenAccounts ["a05"] (1/2)
    (by norm_num) (by norm_num)).1

/-! ## C2 -/

/-- C2 (amended): a sync writes `has_history` afresh from the fetched page
alone — it becomes 0 exactly when the page has fewer than `defaultCount`
articles and 1 otherwise, regardless of the feed's previous value.  The
1→0 direction of the claim holds, but a feed with `has_history = 0` is set
back to 1 whenever a full page returns. -/
theorem c2_hasHistory_recomputed (db : SyncDb) (mpId : String)
    (articles : List Article) (nowSec nowMs : Nat) :
    ((refreshMpArticlesAndUpdateFeed db mpId articles nowSec nowMs).2
        = if articles.length < defaultCount then 0 else 1)
    ∧ (∀ f ∈ (refreshMpArticlesAndUpdateFeed db mpId articles nowSec
          nowMs).1.feeds,
        f.id = mpId →
          f.has_history = if articles.length < defaultCount then 0 else 1)
    ∧ ((refreshMpArticlesAndUpdateFeed db mpId articles nowSec nowMs).2 = 0
        ↔ articles.length < defaultCount) := by
  refine ⟨rfl, ?_, ?_⟩
  · intro f hf hid
    simp only [refreshMpArticlesAndUpdateFeed, updateFeedSyncTimeHasHistory,
      List.mem_map] at hf
    rcases hf with ⟨f0, _, hf0⟩
    by_cases hc : f0.id == mpId
    · rw [if_pos hc] at hf0
      rw [← hf0]
    · rw [if_neg hc] at hf0
      subst hf0
      exact absurd (by simp [hid]) hc
  · by_cases h : articles.length < defaultCount <;>
      simp [refreshMpArticlesAndUpdateFeed, h]

/-- C2 counterexample: a feed whose `has_history` is already 0 gets it set
back to 1 by a sync that returns a full page of `defaultCount` articles, so
"once 0 it is never set back to 1 by any sync" is false. -/
theorem c2_counterexample :
    c2Feed.has_history = 0
    ∧ c2FullPage.length = defaultCount
    ∧ ((refreshMpArticlesAndUpdateFeed { feeds := [c2Feed], articles := [] }
          "f" c2FullPage 111 222).1.feeds.map (fun f => f.has_history))
        = [1] := by
  refine ⟨rfl, rfl, ?_⟩
  decide

/-! ## C4 -/

/-- Inversion of a successful attempt. -/
theorem attemptSelectFetch_fetched (st : SyncState) (today : String)
    (fetchResult : Nat → Except String (List Article)) (rand : Nat → ℚ)
    (attempt : Nat) (accId : String) (arts : List Article)
    (h : attemptSelectFetch st today fetchResult rand attempt
      = AttemptResult.fetched accId arts) :
    ∃ account, getAvailableAccount st.accounts (getBlockedAccountIds st today)
        (rand attempt) = Except.ok account
      ∧ account.id = accId ∧ fetchResult attempt = Except.ok arts := by
  unfold attemptSelectFetch at h
  cases hsel : getAvailableAccount st.accounts (getBlockedAccountIds st today)
      (rand attempt) with
  | error e => rw [hsel] at h; exact absurd h (by simp)
  | ok account =>
    rw [hsel] at h
    cases hf : fetchResult attempt with
    | error m => rw [hf] at h; exact absurd h (by simp)
    | ok arts' =>
      rw [hf] at h
      injection h with h1 h2
      exact ⟨account, rfl, h1, by rw [h2]⟩

/-- Inversion of a failed attempt. -/
theorem attemptSelectFetch_failed (st : SyncState) (today : String)
    (fetchResult : Nat → Except String (List Article)) (rand : Nat → ℚ)
    (attempt : Nat) (accId msg : String)
    (h : attemptSelectFetch st today fetchResult rand attempt
      = AttemptResult.failed accId msg) :
    ∃ account, getAvailableAccount st.accounts (getBlockedAccountIds st today)
        (rand attempt) = Except.ok account
      ∧ account.id = accId ∧ fetchResult attempt = Except.error msg := by
  unfold attemptSelectFetch at h
  cases hsel : getAvailableAccount st.accounts (getBlockedAccountIds st today)
      (rand attempt) with
  | error e => rw [hsel] at h; exact absurd h (by simp)
  | ok account =>
    rw [hsel] at h
    cases hf : fetchResult attempt with
    | ok arts => rw [hf] at h; exact absurd h (by simp)
    | error m =>
      rw [hf] at h
      injection h with h1 h2
      exact ⟨account, rfl, h1, by rw [h2]⟩

/-- The retry recursion performs at most `retryCount + 1` attempts. -/
theorem getMpArticlesGo_trace_le (today : String) (now : Nat)
    (fetchResult : Nat → Except String (List Article)) (rand : Nat → ℚ) :
    ∀ rc st attempt,
      (getMpArticlesGo today now fetchResult rand rc st attempt).2.1.length
        ≤ rc + 1 := by
  intro rc
  induction rc with
  | zero =>
    intro st attempt
    cases h : attemptSelectFetch st today fetchResult rand attempt <;>
      simp [getMpArticlesGo, h]
  | succ n ih =>
    intro st attempt
    cases h : attemptSelectFetch st today fetchResult rand attempt with
    | noAccount => simp [getMpArticlesGo, h]
    | fetched a arts => simp [getMpArticlesGo, h]
    | failed a m =>
      simp only [getMpArticlesGo, h, List.length_cons]
      have := ih (handleAccountError st today a m now) (attempt + 1)
      omega

/-- A surfaced success is the first successful fetch: some attempt `k`
within the budget succeeded, every earlier attempt failed, and exactly
`k + 1` credentials were used. -/
theorem getMpArticlesGo_ok (today : String) (now : Nat)
    (fetchResult : Nat → Except String (List Article)) (rand : Nat → ℚ) :
    ∀ rc st attempt arts,
      (getMpArticlesGo today now fetchResult rand rc st attempt).2.2
          = Except.ok arts →
      ∃ k, k ≤ rc ∧ fetchResult (attempt + k) = Except.ok arts
        ∧ (∀ j < k, ∃ m, fetchResult (attempt + j) = Except.error m)
        ∧ (getMpArticlesGo today now fetchResult rand rc st
            attempt).2.1.length = k + 1 := by
  intro rc
  induction rc with
  | zero =>
    intro st attempt arts hok
    cases h : attemptSelectFetch st today fetchResult rand attempt with
    | noAccount => simp [getMpArticlesGo, h] at hok
    | fetched a arts' =>
      obtain ⟨acc, hsel, hid, hf⟩ :=
        attemptSelectFetch_fetched st today fetchResult rand attempt a arts' h
      simp only [getMpArticlesGo, h] at hok
      injection hok with hok'
      refine ⟨0, Nat.le_refl 0, ?_, fun j hj => absurd hj (Nat.not_lt_zero j),
        by simp [getMpArticlesGo, h]⟩
      rw [Nat.add_zero, hf, hok']
    | failed a m => simp [getMpArticlesGo, h] at hok
  | succ n ih =>
    intro st attempt arts hok
    cases h : attemptSelectFetch st today fetchResult rand attempt with
    | noAccount => simp [getMpArticlesGo, h] at hok
    | fetched a arts' =>
      obtain ⟨acc, hsel, hid, hf⟩ :=
        attemptSelectFetch_fetched st today fetchResult rand attempt a arts' h
      simp only [getMpArticlesGo, h] at hok
      injection hok with hok'
      refine ⟨0, Nat.zero_le _, ?_, fun j hj => absurd hj (Nat.not_lt_zero j),
        by simp [getMpArticlesGo, h]⟩
      rw [Nat.add_zero, hf, hok']
    | failed a m =>
      obtain ⟨acc, hsel, hid, hfm⟩ :=
        attemptSelectFetch_failed st today fetchResult rand attempt a m h
      simp only [getMpArticlesGo, h] at hok
      obtain ⟨k, hk, hf, hprev, hlen⟩ :=
        ih (handleAccountError st today a m now) (attempt + 1) arts hok
      refine ⟨k + 1, by omega, ?_, ?_, ?_⟩
      · rw [show attempt + (k + 1) = attempt + 1 + k by omega]
        exact hf
      · intro j hj
        cases j with
        | zero => exact ⟨m, by rw [Nat.add_zero]; exact hfm⟩
        | succ jj =>
          obtain ⟨m', hm'⟩ := hprev jj (by omega)
          exact ⟨m', by
            rw [show attempt + (jj + 1) = attempt + 1 + jj by omega]
            exact hm'⟩
      · simp only [getMpArticlesGo, h, List.length_cons, hlen]

/-- A surfaced fetch error means every attempt of the whole budget failed
and the surfaced message is the last attempt's. -/
theorem getMpArticlesGo_fetchFail (today : String) (now : Nat)
    (fetchResult : Nat → Except String (List Article)) (rand : Nat → ℚ) :
    ∀ rc st attempt msg,
      (getMpArticlesGo today now fetchResult rand rc st attempt).2.2
          = Except.error (GetArticlesError.fetchFail msg) →
      fetchResult (attempt + rc) = Except.error msg
      ∧ (∀ j ≤ rc, ∃ m, fetchResult (attempt + j) = Except.error m)
      ∧ (getMpArticlesGo today now fetchResult rand rc st
          attempt).2.1.length = rc + 1 := by
  intro rc
  induction rc with
  | zero =>
    intro st attempt msg hfail
    cases h : attemptSelectFetch st today fetchResult rand attempt with
    | noAccount => simp [getMpArticlesGo, h] at hfail
    | fetched a arts => simp [getMpArticlesGo, h] at hfail
    | failed a m =>
      obtain ⟨acc, hsel, hid, hfm⟩ :=
        attemptSelectFetch_failed st today fetchResult rand attempt a m h
      simp only [getMpArticlesGo, h] at hfail
      injection hfail with hfail'
      injection hfail' with hmsg
      refine ⟨by rw [Nat.add_zero, ← hmsg]; exact hfm, ?_,
        by simp [getMpArticlesGo, h]⟩
      intro j hj
      have : j = 0 := by omega
      subst this
      exact ⟨m, by rw [Nat.add_zero]; exact hfm⟩
  | succ n ih =>
    intro st attempt msg hfail
    cases h : attemptSelectFetch st today fetchResult rand attempt with
    | noAccount => simp [getMpArticlesGo, h] at hfail
    | fetched a arts => simp [getMpArticlesGo, h] at hfail
    | failed a m =>
      obtain ⟨acc, hsel, hid, hfm⟩ :=
        attemptSelectFetch_failed st today fetchResult rand attempt a m h
      simp only [getMpArticlesGo, h] at hfail
      obtain ⟨hlast, hall, hlen⟩ :=
        ih (handleAccountError st today a m now) (attempt + 1) msg hfail
      refine ⟨?_, ?_, ?_⟩
      · rw [show attempt + (n + 1) = attempt + 1 + n by omega]
        exact hlast
      · intro j hj
        cases j with
        | zero => exact ⟨m, by rw [Nat.add_zero]; exact hfm⟩
        | succ jj =>
          obtain ⟨m', hm'⟩ := hall jj (by omega)
          exact ⟨m', by
            rw [show attempt + (jj + 1) = attempt + 1 + jj by omega]
            exact hm'⟩
      · simp only [getMpArticlesGo, h, List.length_cons, hlen]

/-- Every attempt's credential is a fresh selection from the state as
updated by the preceding failures. -/
theorem getMpArticlesGo_trace_fresh (today : String) (now : Nat)
    (fetchResult : Nat → Except String (List Article)) (rand : Nat → ℚ) :
    ∀ rc st attempt i,
      i < (getMpArticlesGo today now fetchResult rand rc st
        attempt).2.1.length →
      ∃ acc,
        getAvailableAccount
            (stateAfterAttempts today now fetchResult rand st attempt
              i).accounts
            (getBlockedAccountIds
              (stateAfterAttempts today now fetchResult rand st attempt i)
              today)
            (rand (attempt + i))
          = Except.ok acc
        ∧ ((getMpArticlesGo today now fetchResult rand rc st
            attempt).2.1)[i]? = some acc.id := by
  intro rc
  induction rc with
  | zero =>
    intro st attempt i hi
    cases h : attemptSelectFetch st today fetchResult rand attempt with
    | noAccount => simp [getMpArticlesGo, h] at hi
    | fetched a arts =>
      simp only [getMpArticlesGo, h, List.length_singleton] at hi
      have hi0 : i = 0 := by omega
      subst hi0
      obtain ⟨acc, hsel, hid, _⟩ :=
        attemptSelectFetch_fetched st today fetchResult rand attempt a arts h
      refine ⟨acc, ?_, ?_⟩
      · rw [Nat.add_zero]
        exact hsel
      · simp [getMpArticlesGo, h, stateAfterAttempts, hid]
    | failed a m =>
      simp only [getMpArticlesGo, h, List.length_singleton] at hi
      have hi0 : i = 0 := by omega
      subst hi0
      obtain ⟨acc, hsel, hid, _⟩ :=
        attemptSelectFetch_failed st today fetchResult rand attempt a m h
      refine ⟨acc, ?_, ?_⟩
      · rw [Nat.add_zero]
        exact hsel
      · simp [getMpArticlesGo, h, stateAfterAttempts, hid]
  | succ n ih =>
    intro st attempt i hi
    cases h : attemptSelectFetch st today fetchResult rand attempt with
    | noAccount => simp [getMpArticlesGo, h] at hi
    | fetched a arts =>
      simp only [getMpArticlesGo, h, List.length_singleton] at hi
      have hi0 : i = 0 := by omega
      subst hi0
      obtain ⟨acc, hsel, hid, _⟩ :=
        attemptSelectFetch_fetched st today fetchResult rand attempt a arts h
      refine ⟨acc, ?_, ?_⟩
      · rw [Nat.add_zero]
        exact hsel
      · simp [getMpArticlesGo, h, stateAfterAttempts, hid]
    | failed a m =>
      obtain ⟨acc, hsel, hid, _⟩ :=
        attemptSelectFetch_failed st today fetchResult rand attempt a m h
      cases i with
      | zero =>
        refine ⟨acc, ?_, ?_⟩
        · rw [Nat.add_zero]
          exact hsel
        · simp [getMpArticlesGo, h, stateAfterAttempts, hid]
      | succ j =>
        simp only [getMpArticlesGo, h, List.length_cons] at hi
        obtain ⟨acc', hsel', hid'⟩ :=
          ih (handleAccountError st today a m now) (attempt + 1) j
            (by omega)
        have hstate : stateAfterAttempts today now fetchResult rand st attempt
            (j + 1)
            = stateAfterAttempts today now fetchResult rand
                (handleAccountError st today a m now) (attempt + 1) j := by
          simp [stateAfterAttempts, h]
        refine ⟨acc', ?_, ?_⟩
        · rw [hstate, show attempt + (j + 1) = attempt + 1 + j by omega]
          exact hsel'
        · simp only [getMpArticlesGo, h, List.getElem?_cons_succ]
          exact hid'

/-- C4: `getMpArticles` with its default `retryCount = 3` uses at most 4
attempts (the initial one plus 3 retries); a surfaced success is the first
successful fetch, every earlier attempt having failed; when all 4 attempts
fail it surfaces the error of the last attempt; and every attempt selects a
fresh credential from the state as updated by the preceding failures. -/
theorem c4_getMpArticles_retry (st : SyncState) (today : String) (now : Nat)
    (fetchResult : Nat → Except String (List Article)) (rand : Nat → ℚ) :
    (getMpArticles st today now fetchResult rand).2.1.length ≤ 4
    ∧ (∀ arts, (getMpArticles st today now fetchResult rand).2.2
          = Except.ok arts →
        ∃ k, k ≤ 3 ∧ fetchResult k = Except.ok arts
          ∧ (∀ j < k, ∃ m, fetchResult j = Except.error m)
          ∧ (getMpArticles st today now fetchResult rand).2.1.length = k + 1)
    ∧ (∀ msg, (getMpArticles st today now fetchResult rand).2.2
          = Except.error (GetArticlesError.fetchFail msg) →
        fetchResult 3 = Except.error msg
        ∧ (∀ j ≤ 3, ∃ m, fetchResult j = Except.error m)
        ∧ (getMpArticles st today now fetchResult rand).2.1.length = 4)
    ∧ ∀ i, i < (getMpArticles st today now fetchResult rand).2.1.length →
        ∃ acc,
          getAvailableAccount
              (stateAfterAttempts today now fetchResult rand st 0 i).accounts
              (getBlockedAccountIds
                (stateAfterAttempts today now fetchResult rand st 0 i) today)
              (rand i)
            = Except.ok acc
          ∧ ((getMpArticles st today now fetchResult rand).2.1)[i]?
              = some acc.id := by
  refine ⟨?_, ?_, ?_, ?_⟩
  · exact getMpArticlesGo_trace_le today now fetchResult rand 3 st 0
  · intro arts hok
    obtain ⟨k, hk, hf, hprev, hlen⟩ :=
      getMpArticlesGo_ok today now fetchResult rand 3 st 0 arts hok
    exact ⟨k, hk, by simpa using hf,
      fun j hj => by simpa using hprev j hj, hlen⟩
  · intro msg hfail
    obtain ⟨hlast, hall, hlen⟩ :=
      getMpArticlesGo_fetchFail today now fetchResult rand 3 st 0 msg hfail
    exact ⟨by simpa using hlast, fun j hj => by simpa using hall j hj, hlen⟩
  · intro i hi
    obtain ⟨acc, hsel, hid⟩ :=
      getMpArticlesGo_trace_fresh today now fetchResult rand 3 st 0 i hi
    exact ⟨acc, by simpa using hsel, hid⟩

/-- C4 witness: with one valid account and a fetch that always fails with
`boom`, the call surfaces the last attempt's error after exactly 4
attempts. -/
theorem c4_witness :
    (getMpArticles c4State "d" 7 c4Fetch c4Rand).2.2
        = Except.error (GetArticlesError.fetchFail "boom")
    ∧ (getMpArticles c4State "d" 7 c4Fetch c4Rand).2.1.length = 4 := by
  have hres : (getMpArticles c4State "d" 7 c4Fetch c4Rand).2.2
      = Except.error (GetArticlesError.fetchFail "boom") := by rfl
  exact ⟨hres, ((c4_getMpArticles_retry c4State "d" 7 c4Fetch
    c4Rand).2.2.1 "boom" hres).2.2⟩

/-! ## C5 -/

/-- C5: a second all-feeds-sync invocation started while one is running
returns immediately with the state untouched and no sweep executed; an
invocation that does run clears the running flag on every exit path (the
sweep's outcome, error included, is surfaced unchanged); and two
back-to-back invocations execute the sweep exactly once, the second call
being a silent no-op, with the flag clear at the end. -/
theorem c5_refreshAll_guard (sweep : SyncDb → SyncDb × Except String Unit)
    (st : AllSyncState) :
    (st.running = true →
      refreshAllMpArticlesAndUpdateFeed sweep st = (st, false, Except.ok ()))
    ∧ (st.running = false →
        (refreshAllMpArticlesAndUpdateFeed sweep st).1.running = false
        ∧ (refreshAllMpArticlesAndUpdateFeed sweep st).1.db = (sweep st.db).1
        ∧ (refreshAllMpArticlesAndUpdateFeed sweep st).2.1 = true
        ∧ (refreshAllMpArticlesAndUpdateFeed sweep st).2.2 = (sweep st.db).2)
    ∧ (st.running = false →
        twoBackToBackCalls sweep st
          = ({ running := false, db := (sweep st.db).1 },
             (true, (sweep st.db).2), (false, Except.ok ()))) := by
  refine ⟨fun h => ?_, fun h => ?_, fun h => ?_⟩
  · simp [refreshAllMpArticlesAndUpdateFeed, refreshAllEnter, h]
  · simp [refreshAllMpArticlesAndUpdateFeed, refreshAllEnter,
      refreshAllFinish, h]
  · simp [twoBackToBackCalls, refreshAllEnter,
      refreshAllMpArticlesAndUpdateFeed, refreshAllFinish, h]

/-- C5 witness: from an idle state, two back-to-back invocations with an
identity sweep run the sweep once (first call), the second call is a no-op,
and the flag ends clear. -/
theorem c5_witness :
    twoBackToBackCalls (fun db => (db, Except.ok ()))
        { running := false, db := { feeds := [], articles := [] } }
      = ({ running := false, db := { feeds := [], articles := [] } },
         (true, Except.ok ()), (false, Except.ok ())) := by
  have h := (c5_refreshAll_guard (fun db => (db, Except.ok ()))
    { running := false, db := { feeds := [], articles := [] } }).2.2 rfl
  simpa using h

/-! ## C6 -/

/-- The natural-number form of `Math.ceil(total / defaultCount)` used by
`startHistoryPage` agrees with the rational ceiling. -/
theorem startHistoryPage_eq_ceil (total : Nat) :
    startHistoryPage total = ⌈(total : ℚ) / (defaultCount : ℚ)⌉₊ := by
  unfold startHistoryPage defaultCount
  have h19 : total + 20 - 1 = total + 19 := by omega
  rw [h19]
  rcases Nat.eq_zero_or_pos total with h0 | hpos
  · subst h0
    norm_num
  · set q : Nat := (total + 19) / 20 with hq
    have hq1 : q * 20 ≤ total + 19 := Nat.div_mul_le_self _ _
    have hq2 : total + 19 < (q + 1) * 20 :=
      (Nat.div_lt_iff_lt_mul (by norm_num)).mp (Nat.lt_succ_self q)
    have hqpos : 1 ≤ q := by
      rw [hq]
      rw [Nat.le_div_iff_mul_le (by norm_num)]
      omega
    symm
    rw [Nat.ceil_eq_iff (by omega)]
    have h20 : ((20 : ℕ) : ℚ) = (20 : ℚ) := by norm_num
    rw [h20]
    constructor
    · rw [lt_div_iff₀ (by norm_num : (0:ℚ) < 20)]
      exact_mod_cast (by omega : (q - 1) * 20 < total)
    · rw [div_le_iff₀ (by norm_num : (0:ℚ) < 20)]
      exact_mod_cast (by omega : total ≤ q * 20)

/-- The first page the history loop fetches is the page it starts at. -/
theorem historyLoop_head (mpId : String) (fetchPage : Nat → List Article)
    (nowSec nowMs page : Nat) (db : SyncDb) (fuel : Nat) (h : fuel ≠ 0) :
    (historyLoop mpId fetchPage nowSec nowMs page db fuel).2.head?
      = some page := by
  cases fuel with
  | zero => exact absurd rfl h
  | succ n =>
    unfold historyLoop
    by_cases hc : (refreshMpArticlesAndUpdateFeed db mpId (fetchPage page)
        nowSec nowMs).2 < 1
    · simp [hc]
    · simp [hc]

/-- C6: when deep-history sync actually starts walking (marker free, feed
present, history not yet exhausted), the first fetched page is
`Math.ceil(storedCount / defaultCount)` — the rational ceiling of
`count / 20` — rather than page 1. -/
theorem c6_getHistoryMpArticles_startPage (db : SyncDb)
    (markerId mpId : String) (fetchPage : Nat → List Article)
    (nowSec nowMs : Nat) (feed : FeedRow)
    (hmarker : markerId ≠ mpId)
    (hfeed : getFeedById db.feeds mpId = some feed)
    (hhist : feed.has_history ≠ 0) :
    (getHistoryMpArticles db markerId mpId fetchPage nowSec nowMs).2.head?
        = some (startHistoryPage (countArticlesByMpId db.articles mpId))
    ∧ ∀ total : Nat,
        startHistoryPage total = ⌈(total : ℚ) / (defaultCount : ℚ)⌉₊ := by
  refine ⟨?_, startHistoryPage_eq_ceil⟩
  unfold getHistoryMpArticles
  rw [if_neg (by simpa using hmarker)]
  simp only [hfeed]
  rw [if_neg (by simpa using hhist)]
  exact historyLoop_head _ _ _ _ _ _ _ (by norm_num)

/-- C6 witness: with 45 stored articles and page size 20, the first fetched
page of the deep-history walk is page 3. -/
theorem c6_witness :
    countArticlesByMpId c6Db.articles "f" = 45
    ∧ startHistoryPage 45 = 3
    ∧ (getHistoryMpArticles c6Db "" "f" (fun _ => []) 1 2).2.head?
        = some 3 := by
  have h := (c6_getHistoryMpArticles_startPage c6Db "" "f" (fun _ => []) 1 2
    c6Feed (by decide) (by decide) (by decide)).1
  have hcount : countArticlesByMpId c6Db.articles "f" = 45 := by decide
  rw [hcount] at h
  exact ⟨hcount, by decide, h⟩

/-! ## C7 -/

/-- `removeBlockedAccount` leaves the accounts table alone. -/
theorem removeBlockedAccount_accounts (s : SyncState) (today id : String) :
    (removeBlockedAccount s today id).accounts = s.accounts := by
  unfold removeBlockedAccount
  cases lookupMap s.blockedAccountsMap today <;> rfl

/-- After `removeBlockedAccount` the id is gone from today's blocklist. -/
theorem removeBlockedAccount_not_mem (s : SyncState) (today id : String) :
    id ∉ getBlockedAccountIds (removeBlockedAccount s today id) today := by
  unfold removeBlockedAccount getBlockedAccountIds
  cases h : lookupMap s.blockedAccountsMap today with
  | none =>
    simp [h]
  | some l =>
    simp only [lookupMap_mapSet_self, Option.getD_some]
    intro hmem
    have h1 := List.mem_filter.mp hmem
    have h2 := List.mem_filter.mp h1.1
    simpa using h2.2

/-- Observable effects of an identity-matching login: the credential's row
carries the fresh token with status valid, and the credential is off
today's blocklist. -/
theorem applyLoginUpdate_effects (st : SyncState)
    (today accountId accountName : String) (lr : LoginResult) (now : Nat) :
    (∀ a ∈ (applyLoginUpdate st today accountId accountName lr now).accounts,
        a.id = accountId →
          a.token = lr.token.getD "" ∧ a.status = statusMap.ENABLE)
    ∧ accountId ∉ getBlockedAccountIds
        (applyLoginUpdate st today accountId accountName lr now) today := by
  constructor
  · intro a ha hid
    have hacc : (applyLoginUpdate st today accountId accountName lr now).accounts
        = updateAccountFull st.accounts accountId (lr.token.getD "")
            (jsOrString (lr.username.getD "") accountName) statusMap.ENABLE
            now := by
      unfold applyLoginUpdate
      exact removeBlockedAccount_accounts _ _ _
    rw [hacc] at ha
    unfold updateAccountFull at ha
    rcases List.mem_map.mp ha with ⟨a0, _, heq⟩
    by_cases hc : a0.id == accountId
    · rw [if_pos hc] at heq
      rw [← heq]
      exact ⟨rfl, rfl⟩
    · rw [if_neg hc] at heq
      subst heq
      exact absurd (by simp [hid]) hc
  · exact removeBlockedAccount_not_mem
      { st with
        accounts := updateAccountFull st.accounts accountId (lr.token.getD "")
          (jsOrString (lr.username.getD "") accountName) statusMap.ENABLE
          now } today accountId

/-- The loop performs at most `fuel` polls. -/
theorem tryRefreshLoopGo_polls_le (today accountId accountName : String)
    (now : Nat) (polls : Nat → Except String LoginResult) (st : SyncState) :
    ∀ fuel attempt,
      (tryRefreshLoopGo today accountId accountName now polls st attempt
        fuel).polls ≤ fuel := by
  intro fuel
  induction fuel with
  | zero =>
    intro attempt
    simp [tryRefreshLoopGo]
  | succ n ih =>
    intro attempt
    unfold tryRefreshLoopGo
    cases hp : polls attempt with
    | error e => simp [hp]
    | ok lr =>
      have hrec := ih (attempt + 1)
      by_cases ht : isTerminalLogin lr
      · by_cases hv : toString (lr.vid.getD 0) == accountId <;>
          simp [hp, ht, hv]
      · simp [hp, ht]
        omega

/-- A run whose first `k` polls are non-terminal and whose poll `k` is
terminal stops there: `k + 1` polls, `k` pauses of 5000 ms, no raise, and
the state updated exactly when the resolved identity matches. -/
theorem tryRefreshLoopGo_terminal (today accountId accountName : String)
    (now : Nat) (polls : Nat → Except String LoginResult) (st : SyncState)
    (lr : LoginResult) (hterm : isTerminalLogin lr = true) :
    ∀ k fuel attempt, k < fuel →
      (∀ j < k, ∃ lr', polls (attempt + j) = Except.ok lr'
        ∧ isTerminalLogin lr' = false) →
      polls (attempt + k) = Except.ok lr →
      tryRefreshLoopGo today accountId accountName now polls st attempt fuel
        = { st := if toString (lr.vid.getD 0) == accountId
              then applyLoginUpdate st today accountId accountName lr now
              else st,
            polls := k + 1, sleeps := List.replicate k 5000,
            raised := false } := by
  intro k
  induction k with
  | zero =>
    intro fuel attempt hk hw hp
    cases fuel with
    | zero => omega
    | succ n =>
      rw [Nat.add_zero] at hp
      unfold tryRefreshLoopGo
      simp only [hp]
      rw [if_pos hterm]
      by_cases hv : toString (lr.vid.getD 0) == accountId
      · rw [if_pos hv, if_pos hv]
        simp
      · rw [if_neg hv, if_neg hv]
        simp
  | succ m ih =>
    intro fuel attempt hk hw hp
    cases fuel with
    | zero => omega
    | succ n =>
      obtain ⟨lr0, hp0, ht0⟩ := hw 0 (Nat.succ_pos m)
      rw [Nat.add_zero] at hp0
      unfold tryRefreshLoopGo
      simp only [hp0]
      rw [if_neg (by simp [ht0])]
      have hrec := ih n (attempt + 1) (by omega)
        (fun j hj => by
          obtain ⟨lr', hp', ht'⟩ := hw (j + 1) (by omega)
          refine ⟨lr', ?_, ht'⟩
          rw [show attempt + 1 + j = attempt + (j + 1) by omega]
          exact hp')
        (by
          rw [show attempt + 1 + m = attempt + (m + 1) by omega]
          exact hp)
      rw [hrec]
      simp [List.replicate_succ]

/-- A run whose first `k` polls are non-terminal and whose poll `k` throws
is swallowed there: `k + 1` polls, `k` pauses, the raise recorded, the
state untouched. -/
theorem tryRefreshLoopGo_error (today accountId accountName : String)
    (now : Nat) (polls : Nat → Except String LoginResult) (st : SyncState)
    (e : String) :
    ∀ k fuel attempt, k < fuel →
      (∀ j < k, ∃ lr', polls (attempt + j) = Except.ok lr'
        ∧ isTerminalLogin lr' = false) →
      polls (attempt + k) = Except.error e →
      tryRefreshLoopGo today accountId accountName now polls st attempt fuel
        = { st := st, polls := k + 1, sleeps := List.replicate k 5000,
            raised := true } := by
  intro k
  induction k with
  | zero =>
    intro fuel attempt hk hw hp
    cases fuel with
    | zero => omega
    | succ n =>
      rw [Nat.add_zero] at hp
      unfold tryRefreshLoopGo
      simp only [hp]
      rfl
  | succ m ih =>
    intro fuel attempt hk hw hp
    cases fuel with
    | zero => omega
    | succ n =>
      obtain ⟨lr0, hp0, ht0⟩ := hw 0 (Nat.succ_pos m)
      rw [Nat.add_zero] at hp0
      unfold tryRefreshLoopGo
      simp only [hp0]
      rw [if_neg (by simp [ht0])]
      have hrec := ih n (attempt + 1) (by omega)
        (fun j hj => by
          obtain ⟨lr', hp', ht'⟩ := hw (j + 1) (by omega)
          refine ⟨lr', ?_, ht'⟩
          rw [show attempt + 1 + j = attempt + (j + 1) by omega]
          exact hp')
        (by
          rw [show attempt + 1 + m = attempt + (m + 1) by omega]
          exact hp)
      rw [hrec]
      simp [List.replicate_succ]

/-- A run all of whose polls stay non-terminal exhausts its fuel with the
state untouched. -/
theorem tryRefreshLoopGo_exhaust (today accountId accountName : String)
    (now : Nat) (polls : Nat → Except String LoginResult) (st : SyncState) :
    ∀ fuel attempt,
      (∀ j < fuel, ∃ lr', polls (attempt + j) = Except.ok lr'
        ∧ isTerminalLogin lr' = false) →
      tryRefreshLoopGo today accountId accountName now polls st attempt fuel
        = { st := st, polls := fuel, sleeps := List.replicate fuel 5000,
            raised := false } := by
  intro fuel
  induction fuel with
  | zero =>
    intro attempt _
    rfl
  | succ n ih =>
    intro attempt hw
    obtain ⟨lr0, hp0, ht0⟩ := hw 0 (Nat.succ_pos n)
    rw [Nat.add_zero] at hp0
    unfold tryRefreshLoopGo
    simp only [hp0]
    rw [if_neg (by simp [ht0])]
    rw [ih (attempt + 1) (fun j hj => by
      obtain ⟨lr', hp', ht'⟩ := hw (j + 1) (by omega)
      refine ⟨lr', ?_, ht'⟩
      rw [show attempt + 1 + j = attempt + (j + 1) by omega]
      exact hp')]
    simp [List.replicate_succ]

/-- C7: the re-authentication poll loop makes at most 60 polls; the first
result carrying a truthy identity and token is terminal after exactly `k`
5000 ms pauses, installing the token, setting status valid and clearing the
blocklist entry when the identity matches the credential id, and leaving
the state entirely unmodified when it differs; a thrown poll ends the
attempt with the state untouched and the error swallowed (the function
returns normally, recording `raised`); and sixty non-terminal polls exhaust
the loop with the state untouched. -/
theorem c7_tryRefreshAccountFromLogin_poll (st : SyncState)
    (today accountId accountName : String) (now : Nat)
    (polls : Nat → Except String LoginResult) :
    ((tryRefreshAccountFromLogin st today accountId accountName now
        polls).polls ≤ 60)
    ∧ (∀ k, k < 60 →
        (∀ j < k, ∃ lr', polls j = Except.ok lr'
          ∧ isTerminalLogin lr' = false) →
        ∀ lr, polls k = Except.ok lr → isTerminalLogin lr = true →
          (tryRefreshAccountFromLogin st today accountId accountName now
              polls).polls = k + 1
          ∧ (tryRefreshAccountFromLogin st today accountId accountName now
              polls).sleeps = List.replicate k 5000
          ∧ (tryRefreshAccountFromLogin st today accountId accountName now
              polls).raised = false
          ∧ (toString (lr.vid.getD 0) = accountId →
              (∀ a ∈ (tryRefreshAccountFromLogin st today accountId
                  accountName now polls).st.accounts, a.id = accountId →
                  a.token = lr.token.getD ""
                  ∧ a.status = statusMap.ENABLE)
              ∧ accountId ∉ getBlockedAccountIds
                  (tryRefreshAccountFromLogin st today accountId accountName
                    now polls).st today)
          ∧ (toString (lr.vid.getD 0) ≠ accountId →
              (tryRefreshAccountFromLogin st today accountId accountName now
                polls).st = st))
    ∧ (∀ k, k < 60 →
        (∀ j < k, ∃ lr', polls j = Except.ok lr'
          ∧ isTerminalLogin lr' = false) →
        ∀ e, polls k = Except.error e →
          tryRefreshAccountFromLogin st today accountId accountName now polls
            = { st := st, polls := k + 1, sleeps := List.replicate k 5000,
                raised := true })
    ∧ ((∀ j < 60, ∃ lr', polls j = Except.ok lr'
          ∧ isTerminalLogin lr' = false) →
        tryRefreshAccountFromLogin st today accountId accountName now polls
          = { st := st, polls := 60, sleeps := List.replicate 60 5000,
              raised := false }) := by
  refine ⟨?_, ?_, ?_, ?_⟩
  · exact tryRefreshLoopGo_polls_le today accountId accountName now polls st
      60 0
  · intro k hk hw lr hp hterm
    have heq := tryRefreshLoopGo_terminal today accountId accountName now
      polls st lr hterm k 60 0 hk
      (fun j hj => by simpa using hw j hj)
      (by simpa using hp)
    have heq' : tryRefreshAccountFromLogin st today accountId accountName now
        polls
        = { st := if toString (lr.vid.getD 0) == accountId
              then applyLoginUpdate st today accountId accountName lr now
              else st,
            polls := k + 1, sleeps := List.replicate k 5000,
            raised := false } := heq
    refine ⟨by rw [heq'], by rw [heq'], by rw [heq'], ?_, ?_⟩
    · intro hv
      rw [heq']
      simp only [if_pos (show (toString (lr.vid.getD 0) == accountId) = true
        by simp [hv])]
      exact applyLoginUpdate_effects st today accountId accountName lr now
    · intro hv
      rw [heq']
      simp only [if_neg (show ¬(toString (lr.vid.getD 0) == accountId) = true
        by simp [hv])]
  · intro k hk hw e hp
    exact tryRefreshLoopGo_error today accountId accountName now polls st e
      k 60 0 hk (fun j hj => by simpa using hw j hj) (by simpa using hp)
  · intro hw
    exact tryRefreshLoopGo_exhaust today accountId accountName now polls st
      60 0 (fun j hj => by simpa using hw j hj)

/-- C7 witness: five `waiting` polls then `{vid: 42, token: "abc"}` for the
credential `42` stop the loop at six polls, install token `abc` with status
valid, and clear `42` from today's blocklist. -/
theorem c7_witness :
    (tryRefreshAccountFromLogin c7State "2024-01-01" "42" "acc" 9
        c7Polls).polls = 6
    ∧ (∀ a ∈ (tryRefreshAccountFromLogin c7State "2024-01-01" "42" "acc" 9
        c7Polls).st.accounts,
        a.id = "42" → a.token = "abc" ∧ a.status = statusMap.ENABLE)
    ∧ "42" ∉ getBlockedAccountIds
        (tryRefreshAccountFromLogin c7State "2024-01-01" "42" "acc" 9
          c7Polls).st "2024-01-01" := by
  have h := (c7_tryRefreshAccountFromLogin_poll c7State "2024-01-01" "42"
      "acc" 9 c7Polls).2.1 5 (by norm_num)
    (fun j hj => ⟨c7Waiting, by simp [c7Polls, hj], by decide⟩)
    c7Terminal (by norm_num [c7Polls]) (by decide)
  have hm := h.2.2.2.1 (by decide)
  exact ⟨h.1, hm.1, hm.2⟩

/-! ## C8 -/

/-- C8: `checkAccountValidity` reports the credential invalid (`false`)
exactly when the probe failed with HTTP status 401 or with an error body
whose message contains the `WeReadError401` marker; a 404, any other error
status, a network error and a successful probe all report still valid. -/
theorem c8_checkAccountValidity_iff (o : ProbeOutcome) :
    checkAccountValidity o = false
      ↔ ∃ status dataMessage, o = ProbeOutcome.httpError status dataMessage
          ∧ (status = 401
              ∨ strIncludes (dataMessage.getD "") "WeReadError401" = true) := by
  cases o with
  | success => simp [checkAccountValidity]
  | networkError => simp [checkAccountValidity]
  | httpError status dataMessage =>
    simp only [checkAccountValidity]
    by_cases h : (status == 401 || strIncludes (dataMessage.getD "") "WeReadError401") = true
    · simp only [h, if_true]
      constructor
      · intro _
        refine ⟨status, dataMessage, rfl, ?_⟩
        rcases Bool.or_eq_true_iff.mp h with h' | h'
        · exact Or.inl (by simpa using h')
        · exact Or.inr h'
      · intro _; trivial
    · rw [if_neg h]
      simp only [ite_self]
      constructor
      · intro hcontra; exact absurd hcontra (by simp)
      · rintro ⟨s, m, heq, hcase⟩
        cases heq
        exact absurd (by rcases hcase with h' | h' <;> simp [h']) h

/-! ## C10 -/

/-- C10: `handleGenerateFeed` never fails on the document type: a type
outside `feedTypes` falls back to the Atom serializer with the Atom MIME
type, each of the three recognised types gets its mapped MIME type and
matching serializer, and the MIME lookup always succeeds. -/
theorem c10_handleGenerateFeedType_fallback :
    (∀ t : String, t ∉ feedTypes →
      handleGenerateFeedType t
        = (RenderKind.atom1, some "application/atom+xml; charset=utf-8"))
    ∧ handleGenerateFeedType "rss"
        = (RenderKind.rss2, some "application/rss+xml; charset=utf-8")
    ∧ handleGenerateFeedType "atom"
        = (RenderKind.atom1, some "application/atom+xml; charset=utf-8")
    ∧ handleGenerateFeedType "json"
        = (RenderKind.json1, some "application/feed+json; charset=utf-8")
    ∧ ∀ t : String, (handleGenerateFeedType t).2.isSome = true := by
  have hfallback : ∀ t : String, t ∉ feedTypes →
      handleGenerateFeedType t
        = (RenderKind.atom1, some "application/atom+xml; charset=utf-8") := by
    intro t ht
    simp only [handleGenerateFeedType, if_neg ht]
    decide
  refine ⟨hfallback, by decide, by decide, by decide, fun t => ?_⟩
  by_cases ht : t ∈ feedTypes
  · have : t = "rss" ∨ t = "atom" ∨ t = "json" := by
      simpa [feedTypes] using ht
    rcases this with rfl | rfl | rfl <;> decide
  · rw [hfallback t ht]; rfl

/-- C10 witness: the unrecognised type `xml` produces the Atom document and
MIME type. -/
theorem c10_witness :
    handleGenerateFeedType "xml"
      = (RenderKind.atom1, some "application/atom+xml; charset=utf-8") :=
  c10_handleGenerateFeedType_fallback.1 "xml" (by decide)

end WeweRss
